import Mathlib

/-!
# Verification of the `timelog` time-tracking program

Shallow embedding of the core of the `timelog` repository
(`src/lib.rs` and `src/main.rs`) and proofs about it.

Modelling conventions:
* `chrono::DateTime<Local>` is modelled as an `Int`: whole seconds since the
  epoch of the local civil clock.  Ordering of instants is integer ordering,
  and the local calendar date of an instant is obtained by floor-dividing by
  86400 and applying the proleptic-Gregorian civil-from-days algorithm.
* `chrono::Duration` is modelled as a structure of whole seconds (`Int`)
  plus a nanosecond remainder (`Nat`, invariant `< 10^9` where needed),
  mirroring chrono's internal `secs`/`nanos` representation and its
  truncating accessors `num_days`/`num_hours`/`num_minutes`/`num_seconds`.
  Rust's truncating `i64` division/remainder are `Int.tdiv`/`Int.tmod`.
* `std::collections::BinaryHeap<Entry>` is modelled by the `List Entry` of
  its contents; `pop` removes one maximal element w.r.t. `Entry.cmp`
  (which element is popped among `cmp`-ties is unspecified in the heap; the
  model picks one deterministically), `push` conses, and
  `into_sorted_vec` sorts ascending by `Entry.cmp`.
* serde_json persistence is modelled at the level of field presence: an
  `EntryJson` record has one optional slot per `Entry` field, `none` meaning
  the field is absent from the JSON object.  The serde attributes
  `skip_serializing_if` and `default` on `Entry` determine the
  `Entry.toJson` / `EntryJson.toEntry` conversions.
* `main`'s `Stop`/`Note` subcommands are modelled as functions from the
  loaded collection to `Except String` (the `Box<Error>` messages of
  `main.rs`); `write_entries` (the only save) runs only after the step
  succeeds, so the on-disk contents after a failed run equal the prior ones.
-/

namespace Timelog

/-- chrono `Duration`: whole seconds plus a nanosecond part (`0 ≤ nanos`,
and `nanos < 10^9` in every value chrono constructs). -/
structure Duration where
  secs : Int
  nanos : Nat
deriving DecidableEq, Repr

/-- chrono `Duration::num_seconds`: `if secs < 0 && nanos > 0 { secs + 1 } else { secs }`. -/
def Duration.numSeconds (d : Duration) : Int :=
  if d.secs < 0 ∧ 0 < d.nanos then d.secs + 1 else d.secs

/-- chrono `Duration::num_days` = `num_seconds() / 86400` (truncating `i64` division). -/
def Duration.numDays (d : Duration) : Int := d.numSeconds.tdiv 86400

/-- chrono `Duration::num_hours` = `num_seconds() / 3600`. -/
def Duration.numHours (d : Duration) : Int := d.numSeconds.tdiv 3600

/-- chrono `Duration::num_minutes` = `num_seconds() / 60`. -/
def Duration.numMinutes (d : Duration) : Int := d.numSeconds.tdiv 60

/-- chrono `Duration::days(d)` = d*86400 seconds. -/
def Duration.days (d : Int) : Duration := ⟨d * 86400, 0⟩

/-- chrono `Duration::hours(h)` = h*3600 seconds. -/
def Duration.hours (h : Int) : Duration := ⟨h * 3600, 0⟩

/-- chrono `Duration::minutes(m)` = m*60 seconds. -/
def Duration.minutes (m : Int) : Duration := ⟨m * 60, 0⟩

/-- chrono `Sub for Duration`: subtract seconds and nanoseconds, borrowing
one second when the nanosecond difference is negative. -/
def Duration.sub (a b : Duration) : Duration :=
  let secs := a.secs - b.secs
  let nanos : Int := (a.nanos : Int) - (b.nanos : Int)
  if nanos < 0 then ⟨secs - 1, (nanos + 1000000000).toNat⟩ else ⟨secs, nanos.toNat⟩

/-- `format_dur` from `src/lib.rs` lines 136–158: successively split off
days, hours, minutes, seconds; append `"<value><letter>"` for each non-zero
component. -/
def format_dur (dur0 : Duration) : String :=
  let out0 : String := ""
  let d := dur0.numDays
  let out1 := if d ≠ 0 then out0 ++ toString d ++ "d" else out0
  let dur1 := if d ≠ 0 then dur0.sub (Duration.days d) else dur0
  let h := dur1.numHours
  let out2 := if h ≠ 0 then out1 ++ toString h ++ "h" else out1
  let dur2 := if h ≠ 0 then dur1.sub (Duration.hours h) else dur1
  let m := dur2.numMinutes
  let out3 := if m ≠ 0 then out2 ++ toString m ++ "m" else out2
  let dur3 := if m ≠ 0 then dur2.sub (Duration.minutes m) else dur2
  let s := dur3.numSeconds
  let out4 := if s ≠ 0 then out3 ++ toString s ++ "s" else out3
  out4

/-- One rendered unit of the §4.1 specification: `"<value><unit-letter>"`
if the value is non-zero, nothing otherwise. -/
def renderUnit (v : Int) (u : String) : String :=
  if v = 0 then "" else toString v ++ u

/-- The whole-seconds formatting chain: what `format_dur` computes on a
duration whose whole-second part is `n` (components by successive
truncating divide-and-subtract, i.e. `tdiv`/`tmod`). -/
def specFormatDur (n : Int) : String :=
  renderUnit (n.tdiv 86400) "d"
    ++ renderUnit ((n.tmod 86400).tdiv 3600) "h"
    ++ renderUnit (((n.tmod 86400).tmod 3600).tdiv 60) "m"
    ++ renderUnit (((n.tmod 86400).tmod 3600).tmod 60) "s"

/-- The `Entry` record of `src/lib.rs` lines 15–27 (timestamps as model
instants). -/
structure Entry where
  start : Option Int
  stop : Option Int
  goal : String
  result : String
  notes : List String
deriving DecidableEq, Repr

/-- `Entry::default()`: every field absent/empty. -/
def Entry.deflt : Entry := ⟨none, none, "", "", []⟩

/-- Rust `i64::cmp` (the `Ord` instance of the modelled timestamps). -/
def intCmp (x y : Int) : Ordering :=
  if x < y then .lt else if x = y then .eq else .gt

/-- `impl Ord for Entry` (`src/lib.rs` lines 29–37): compare by `start`;
`(Some, Some)` compares the timestamps, `(Some, None)` is `Greater`,
`(None, _)` is `Less`. -/
def Entry.cmp (a b : Entry) : Ordering :=
  match a.start, b.start with
  | some x, some y => intCmp x y
  | some _, none => .gt
  | none, _ => .lt

/-- Fold of `Entry.cmp`-maximum over a list, seeded with `a`: the element
`BinaryHeap::pop` hands back is a maximal one under this comparison. -/
def heapFoldMax (xs : List Entry) (a : Entry) : Entry :=
  xs.foldl (fun acc e => if Entry.cmp e acc = .gt then e else acc) a

/-- Model of `BinaryHeap::pop`: on a non-empty collection remove and return
a `Entry.cmp`-maximal element, `none` on an empty one. -/
def popMax (l : List Entry) : Option (Entry × List Entry) :=
  match l with
  | [] => none
  | x :: xs =>
      let m := heapFoldMax xs x
      some (m, (x :: xs).erase m)

/-- Model of `BinaryHeap::into_sorted_vec` (ascending under `Entry.cmp`):
insertion into a sorted list. -/
def insertByStart (e : Entry) : List Entry → List Entry
  | [] => [e]
  | x :: xs => if Entry.cmp e x = .gt then x :: insertByStart e xs else e :: x :: xs

/-- Model of `BinaryHeap::into_sorted_vec`: sort ascending under `Entry.cmp`. -/
def sortEntries : List Entry → List Entry
  | [] => []
  | x :: xs => insertByStart x (sortEntries xs)

/-- JSON image of an `Entry`: one slot per field, `none` = field absent
from the serialized object. -/
structure EntryJson where
  start : Option Int
  stop : Option Int
  goal : Option String
  result : Option String
  notes : Option (List String)
deriving DecidableEq, Repr

/-- Serialization of one `Entry` per the serde attributes on `src/lib.rs`
lines 15–27: `start`/`stop` are skipped when `None`, `goal`/`result` when
empty, `notes` when the empty vector. -/
def Entry.toJson (e : Entry) : EntryJson :=
  { start := e.start
    stop := e.stop
    goal := if e.goal = "" then none else some e.goal
    result := if e.result = "" then none else some e.result
    notes := if e.notes = [] then none else some e.notes }

/-- Deserialization of one `Entry` per `#[serde(default)]`: an absent field
takes the field type's default (`None`, `""`, `[]`). -/
def EntryJson.toEntry (j : EntryJson) : Entry :=
  { start := j.start
    stop := j.stop
    goal := j.goal.getD ""
    result := j.result.getD ""
    notes := j.notes.getD [] }

/-- `read_entries` (`src/lib.rs` lines 117–125).  The argument models the
`Option<R>` reader produced by `get_file_reader`: `none` = the file does
not exist; `some` carries the outcome of `serde_json::from_reader` on the
existing file (`.error` = contents do not parse). -/
def read_entries (reader : Option (Except String (List EntryJson))) :
    Except String (List Entry) :=
  match reader with
  | none => .ok []
  | some (.error e) => .error e
  | some (.ok js) => .ok (js.map EntryJson.toEntry)

/-- `write_entries` (`src/lib.rs` lines 127–134): drain the heap into
ascending sorted order and serialize the sequence of records. -/
def write_entries (entries : List Entry) : List EntryJson :=
  (sortEntries entries).map Entry.toJson

/-- The `SubCommand::Stop` step of `main` (`src/main.rs` lines 196–214):
pop the latest entry (`"NoneError"` when the collection is empty); if it is
still open, set `stop`/`result` and push it back; otherwise fail with
`"last entry was already completed"` before anything is pushed or saved. -/
def stopStep (entries : List Entry) (stop : Int) (result : String) :
    Except String (List Entry) :=
  match popMax entries with
  | none => .error "NoneError"
  | some (lastEntry, rest) =>
      if lastEntry.stop = none then
        .ok ({ lastEntry with stop := some stop, result := result } :: rest)
      else
        .error "last entry was already completed"

/-- The `SubCommand::Note` step of `main` (`src/main.rs` lines 215–227):
pop the latest entry (`"NoneError"` when empty), append the note to its
`notes`, push it back. -/
def noteStep (entries : List Entry) (note : String) :
    Except String (List Entry) :=
  match popMax entries with
  | none => .error "NoneError"
  | some (lastEntry, rest) =>
      .ok ({ lastEntry with notes := lastEntry.notes ++ [note] } :: rest)

/-- On-disk contents after one `stop` run whose prior file held `disk`:
`write_entries` runs only after the step succeeds; an error propagates out
of `main` before any save, leaving the prior file untouched. -/
def diskAfterStop (disk : List Entry) (now : Int) (result : String) :
    List Entry :=
  match stopStep disk now result with
  | .ok h => sortEntries h
  | .error _ => disk

/-- On-disk contents after one `note` run whose prior file held `disk`. -/
def diskAfterNote (disk : List Entry) (note : String) : List Entry :=
  match noteStep disk note with
  | .ok h => sortEntries h
  | .error _ => disk

/-- Proleptic-Gregorian leap year. -/
def isLeapYear (y : Int) : Bool := y % 4 = 0 ∧ (y % 100 ≠ 0 ∨ y % 400 = 0)

/-- Civil date `(year, month, day)` of a day count since 1970-01-01
(standard civil-from-days algorithm; `/` is floor division here since the
divisors are positive). -/
def civilFromDays (z0 : Int) : Int × Int × Int :=
  let z := z0 + 719468
  let era := z / 146097
  let doe := z - era * 146097
  let yoe := (doe - doe / 1460 + doe / 36524 - doe / 146096) / 365
  let y := yoe + era * 400
  let doy := doe - (365 * yoe + yoe / 4 - yoe / 100)
  let mp := (5 * doy + 2) / 153
  let d := doy - (153 * mp + 2) / 5 + 1
  let m := mp + (if mp < 10 then 3 else -9)
  (y + (if m ≤ 2 then 1 else 0), m, d)

/-- Day count since 1970-01-01 of a civil date (standard days-from-civil
algorithm). -/
def daysFromCivil (y0 m d : Int) : Int :=
  let y := y0 - (if m ≤ 2 then 1 else 0)
  let era := y / 400
  let yoe := y - era * 400
  let doy := (153 * (m + (if m > 2 then -3 else 9)) + 2) / 5 + d - 1
  let doe := yoe * 365 + yoe / 4 - yoe / 100 + doy
  era * 146097 + doe - 719468

/-- ISO weekday (Monday = 1 … Sunday = 7) of a day count
(1970-01-01 was a Thursday). -/
def isoWeekday (days : Int) : Int := (days + 3) % 7 + 1

/-- Number of ISO weeks in ISO year `y`: 53 iff Jan 1 is a Thursday, or
`y` is leap and Jan 1 is a Wednesday; else 52. -/
def isoWeeksInYear (y : Int) : Int :=
  let wd := isoWeekday (daysFromCivil y 1 1)
  if wd = 4 ∨ (isLeapYear y ∧ wd = 3) then 53 else 52

/-- Calendar year of a day count: chrono `Datelike::year`. -/
def yearOfDays (days : Int) : Int := (civilFromDays days).1

/-- ISO 8601 `(iso year, iso week number)` of a day count: chrono
`Datelike::iso_week`. -/
def isoWeekOfDays (days : Int) : Int × Int :=
  let y := yearOfDays days
  let doy := days - daysFromCivil y 1 1 + 1
  let wd := isoWeekday days
  let w := (doy - wd + 10) / 7
  if w < 1 then (y - 1, isoWeeksInYear (y - 1))
  else if w > isoWeeksInYear y then (y + 1, 1)
  else (y, w)

/-- Day count of the local civil date of an instant (floor division, as in
chrono's timestamp-to-naive-date conversion). -/
def dayOfInstant (t : Int) : Int := t / 86400

/-- The weekly bucket key `main` computes for a completed entry starting at
`t` (`src/main.rs` lines 138–143): `(start.year(), start.iso_week().week())`
— the CALENDAR year paired with the ISO week number. -/
def weeklyKey (t : Int) : Int × Int :=
  (yearOfDays (dayOfInstant t), (isoWeekOfDays (dayOfInstant t)).2)

/-- The `(ISO year, ISO week number)` pair of the instant `t` — the bucket
key named by the specification. -/
def isoWeekPair (t : Int) : Int × Int := isoWeekOfDays (dayOfInstant t)

/-- `HashMap::entry(k).or_insert(zero)` followed by `+= d`, on an
association list: add `d` to the bucket keyed `k`, creating it at zero
first if absent. -/
def bucketAdd (m : List ((Int × Int) × Int)) (k : Int × Int) (d : Int) :
    List ((Int × Int) × Int) :=
  match m with
  | [] => [(k, d)]
  | (k0, v) :: rest =>
      if k0 = k then (k0, v + d) :: rest else (k0, v) :: bucketAdd rest k d

/-- Bucket lookup, zero for an absent key (the `or_insert(zero)` default). -/
def lookupBucket (m : List ((Int × Int) × Int)) (k : Int × Int) : Int :=
  match m with
  | [] => 0
  | (k0, v) :: rest => if k0 = k then v else lookupBucket rest k

/-- The `weekly` accumulation loop of `SubCommand::Summary`
(`src/main.rs` lines 121–149): for each entry with both `start` and `stop`,
add `stop - start` to the bucket keyed by `weeklyKey start`.  Durations are
in whole seconds (the instants are whole seconds). -/
def weeklySummary (entries : List Entry) : List ((Int × Int) × Int) :=
  entries.foldl
    (fun m e =>
      match e.start, e.stop with
      | some a, some b => bucketAdd m (weeklyKey a) (b - a)
      | _, _ => m)
    []

/-- The contribution of one entry to the weekly bucket keyed `k`: its
duration if it is completed and its start falls under key `k`, else zero. -/
def weeklyContrib (k : Int × Int) (e : Entry) : Int :=
  match e.start, e.stop with
  | some a, some b => if weeklyKey a = k then b - a else 0
  | _, _ => 0

/-- Relation between a `Duration` and its whole-second count `n`: either the
seconds field is `n` itself (with no pending sub-second part when `n` is
negative), or the seconds field is `n - 1` with a positive nanosecond part
(the carry case of `num_seconds`). -/
def SecsRep (dur : Duration) (n : Int) : Prop :=
  (dur.secs = n ∧ (dur.nanos = 0 ∨ 0 ≤ n)) ∨
    (dur.secs = n - 1 ∧ 0 < dur.nanos ∧ n ≤ 0)

/-- Noon of 2019-12-30 (a Monday, in ISO week 1 of ISO year 2020). -/
def exStartA : Int := daysFromCivil 2019 12 30 * 86400 + 43200

/-- Noon of 2020-01-03 (a Friday, in ISO week 1 of ISO year 2020). -/
def exStartB : Int := daysFromCivil 2020 1 3 * 86400 + 43200

/-! ## Properties of the entry comparison -/

lemma intCmp_eq_lt {x y : Int} : intCmp x y = .lt ↔ x < y := by
  unfold intCmp; split_ifs <;> simp_all <;> omega

lemma intCmp_eq_eq {x y : Int} : intCmp x y = .eq ↔ x = y := by
  unfold intCmp; split_ifs <;> simp_all <;> omega

lemma intCmp_eq_gt {x y : Int} : intCmp x y = .gt ↔ y < x := by
  unfold intCmp; split_ifs <;> simp_all <;> omega

lemma cmp_self_not_gt (a : Entry) : Entry.cmp a a ≠ .gt := by
  rcases ha : a.start with _ | x <;> simp [Entry.cmp, ha, intCmp_eq_gt]

lemma cmp_gt_trans {a b c : Entry} (h1 : Entry.cmp a b = .gt)
    (h2 : Entry.cmp b c = .gt) : Entry.cmp a c = .gt := by
  rcases ha : a.start with _ | x <;> rcases hb : b.start with _ | y <;>
    rcases hc : c.start with _ | z <;>
    simp_all [Entry.cmp, intCmp_eq_gt] <;> omega

lemma cmp_not_gt_trans {a b c : Entry} (h1 : Entry.cmp a b ≠ .gt)
    (h2 : Entry.cmp b c ≠ .gt) : Entry.cmp a c ≠ .gt := by
  rcases ha : a.start with _ | x <;> rcases hb : b.start with _ | y <;>
    rcases hc : c.start with _ | z <;>
    simp_all [Entry.cmp, intCmp_eq_gt] <;> omega

/-- C2 counterexample: the comparison is not reflexive on an entry with
`start = None` — it compares `Less` to itself, not `Equal`, and hence is
also not antisymmetric there. -/
theorem entry_cmp_irreflexive_at_none :
    Entry.cmp Entry.deflt Entry.deflt = Ordering.lt
    ∧ Entry.cmp Entry.deflt Entry.deflt ≠ Ordering.eq
    ∧ (Entry.cmp Entry.deflt Entry.deflt).swap ≠ Entry.cmp Entry.deflt Entry.deflt := by
  decide

/-- C2 (amended): the comparison is reflexive and antisymmetric on entries
with `start` set; an entry with `start = None` compares `Less` to every
entry — other `None`-start entries and itself included, so `cmp` is not
reflexive at `None`; two entries with `start` set are ordered ascending by
timestamp; and the strict `Less` relation is transitive. -/
theorem entry_cmp_order_properties :
    (∀ (a : Entry) (x : Int), a.start = some x → Entry.cmp a a = Ordering.eq)
    ∧ (∀ a : Entry, a.start = none → Entry.cmp a a = Ordering.lt)
    ∧ (∀ a b : Entry, a.start ≠ none → b.start ≠ none →
        (Entry.cmp a b).swap = Entry.cmp b a)
    ∧ (∀ a b : Entry, a.start = none → Entry.cmp a b = Ordering.lt)
    ∧ (∀ (a b : Entry) (x y : Int), a.start = some x → b.start = some y →
        (Entry.cmp a b = Ordering.lt ↔ x < y) ∧ (Entry.cmp a b = Ordering.eq ↔ x = y))
    ∧ (∀ a b c : Entry, Entry.cmp a b = Ordering.lt → Entry.cmp b c = Ordering.lt →
        Entry.cmp a c = Ordering.lt) := by
  refine ⟨?_, ?_, ?_, ?_, ?_, ?_⟩
  · intro a x ha; simp [Entry.cmp, ha, intCmp_eq_eq]
  · intro a ha; simp [Entry.cmp, ha]
  · intro a b ha hb
    rcases hsa : a.start with _ | x
    · exact absurd hsa ha
    rcases hsb : b.start with _ | y
    · exact absurd hsb hb
    have h1 : Entry.cmp a b = intCmp x y := by simp [Entry.cmp, hsa, hsb]
    have h2 : Entry.cmp b a = intCmp y x := by simp [Entry.cmp, hsa, hsb]
    rw [h1, h2]; unfold intCmp
    split_ifs <;> first | rfl | omega
  · intro a b ha; simp [Entry.cmp, ha]
  · intro a b x y ha hb
    simp [Entry.cmp, ha, hb, intCmp_eq_lt, intCmp_eq_eq]
  · intro a b c h1 h2
    rcases ha : a.start with _ | x <;> rcases hb : b.start with _ | y <;>
      rcases hc : c.start with _ | z <;>
      simp_all [Entry.cmp, intCmp_eq_lt] <;> omega

/-- Witness for `entry_cmp_order_properties` at concrete entries. -/
theorem entry_cmp_order_properties_witness :
    Entry.cmp ⟨some 1, none, "", "", []⟩ ⟨some 2, none, "", "", []⟩ = Ordering.lt := by
  have h := (entry_cmp_order_properties.2.2.2.2.1
    ⟨some 1, none, "", "", []⟩ ⟨some 2, none, "", "", []⟩ 1 2 rfl rfl).1
  exact h.mpr (by norm_num)

/-! ## The priority store: pop of the most recent entry -/

lemma heapFoldMax_cons (x : Entry) (xs : List Entry) (a : Entry) :
    heapFoldMax (x :: xs) a
      = heapFoldMax xs (if Entry.cmp x a = .gt then x else a) := rfl

lemma heapFoldMax_spec (xs : List Entry) (a : Entry) :
    (heapFoldMax xs a = a ∨ heapFoldMax xs a ∈ xs)
    ∧ Entry.cmp a (heapFoldMax xs a) ≠ .gt
    ∧ ∀ e ∈ xs, Entry.cmp e (heapFoldMax xs a) ≠ .gt := by
  induction xs generalizing a with
  | nil => exact ⟨Or.inl rfl, cmp_self_not_gt a, by simp⟩
  | cons x xs ih =>
    rw [heapFoldMax_cons]
    by_cases hx : Entry.cmp x a = .gt
    · rw [if_pos hx]
      obtain ⟨hmem, hacc, hall⟩ := ih x
      refine ⟨?_, ?_, ?_⟩
      · rcases hmem with h | h
        · exact Or.inr (by simp [h])
        · exact Or.inr (by simp [h])
      · intro hcon
        exact hacc (cmp_gt_trans hx hcon)
      · intro e he
        rcases List.mem_cons.mp he with rfl | he
        · exact hacc
        · exact hall e he
    · rw [if_neg hx]
      obtain ⟨hmem, hacc, hall⟩ := ih a
      refine ⟨?_, hacc, ?_⟩
      · rcases hmem with h | h
        · exact Or.inl h
        · exact Or.inr (by simp [h])
      · intro e he
        rcases List.mem_cons.mp he with rfl | he
        · exact cmp_not_gt_trans hx hacc
        · exact hall e he

lemma popMax_nonempty {l : List Entry} (h : l ≠ []) :
    ∃ m rest, popMax l = some (m, rest) ∧ m ∈ l ∧ l.Perm (m :: rest)
      ∧ ∀ e ∈ l, Entry.cmp e m ≠ .gt := by
  rcases l with _ | ⟨x, xs⟩
  · exact absurd rfl h
  obtain ⟨hmem, hacc, hall⟩ := heapFoldMax_spec xs x
  set m := heapFoldMax xs x with hm
  have hmin : m ∈ x :: xs := by
    rcases hmem with h1 | h1
    · simp [h1]
    · simp [h1]
  refine ⟨m, (x :: xs).erase m, rfl, hmin, List.perm_cons_erase hmin, ?_⟩
  intro e he
  rcases List.mem_cons.mp he with rfl | he
  · exact hacc
  · exact hall e he

/-- C7: `pop` on an empty collection signals empty; on a non-empty
collection it removes and returns an entry maximal under the §3 ordering;
for two entries `A`, `B` with `A.start = T1 < T2 = B.start`, popping
`{A, B}` returns `B` first, then `A`. -/
theorem pop_most_recent_spec :
    popMax ([] : List Entry) = none
    ∧ (∀ l : List Entry, l ≠ [] →
        ∃ m rest, popMax l = some (m, rest) ∧ m ∈ l ∧ l.Perm (m :: rest)
          ∧ ∀ e ∈ l, Entry.cmp e m ≠ .gt)
    ∧ (∀ (t1 t2 : Int) (A B : Entry), t1 < t2 → A.start = some t1 →
        B.start = some t2 →
        popMax [A, B] = some (B, [A]) ∧ popMax [A] = some (A, [])) := by
  refine ⟨rfl, fun l h => popMax_nonempty h, ?_⟩
  intro t1 t2 A B hlt hA hB
  have hgt : Entry.cmp B A = .gt := by
    simp [Entry.cmp, hA, hB, intCmp_eq_gt, hlt]
  have hne : A ≠ B := by
    intro h; rw [h, hB] at hA; simp at hA; omega
  constructor
  · have h1 : heapFoldMax [B] A = B := by
      rw [heapFoldMax_cons, if_pos hgt]; rfl
    have h2 : ([A, B] : List Entry).erase B = [A] := by
      rw [List.erase_cons_tail, List.erase_cons_head]
      simp [hne]
    simp [popMax, h1, h2]
  · simp [popMax, heapFoldMax, List.erase_cons_head]

/-- Witness for `pop_most_recent_spec` at a concrete two-entry collection. -/
theorem pop_most_recent_spec_witness :
    popMax [(⟨some 100, none, "", "", []⟩ : Entry), ⟨some 200, none, "", "", []⟩]
      = some (⟨some 200, none, "", "", []⟩, [⟨some 100, none, "", "", []⟩]) :=
  (pop_most_recent_spec.2.2 100 200 ⟨some 100, none, "", "", []⟩
    ⟨some 200, none, "", "", []⟩ (by norm_num) rfl rfl).1

/-- C10: on a non-empty collection, `note` pops a maximal entry, appends
exactly the one note to its `notes` (leaving its `start`, `stop`, `goal`,
`result` unchanged), pushes it back, leaves every other entry unchanged
and the size unchanged, and succeeds whether or not that entry has `stop`
set. -/
theorem note_appends_only_latest_notes (l : List Entry) (note : String)
    (h : l ≠ []) :
    ∃ m rest, popMax l = some (m, rest)
      ∧ (∀ e ∈ l, Entry.cmp e m ≠ .gt)
      ∧ l.Perm (m :: rest)
      ∧ noteStep l note
          = .ok ((⟨m.start, m.stop, m.goal, m.result, m.notes ++ [note]⟩ : Entry) :: rest)
      ∧ ((⟨m.start, m.stop, m.goal, m.result, m.notes ++ [note]⟩ : Entry) :: rest).length
          = l.length := by
  obtain ⟨m, rest, hpop, hmem, hperm, hmax⟩ := popMax_nonempty h
  refine ⟨m, rest, hpop, hmax, hperm, ?_, ?_⟩
  · unfold noteStep
    rw [hpop]
  · have := hperm.length_eq
    simp_all

/-- Witness for `note_appends_only_latest_notes` on a one-entry collection. -/
theorem note_appends_only_latest_notes_witness :
    ∃ m rest, popMax [(⟨some 7, some 9, "g", "r", ["n0"]⟩ : Entry)] = some (m, rest)
      ∧ (∀ e ∈ [(⟨some 7, some 9, "g", "r", ["n0"]⟩ : Entry)], Entry.cmp e m ≠ .gt)
      ∧ ([(⟨some 7, some 9, "g", "r", ["n0"]⟩ : Entry)]).Perm (m :: rest)
      ∧ noteStep [(⟨some 7, some 9, "g", "r", ["n0"]⟩ : Entry)] "n1"
          = .ok ((⟨m.start, m.stop, m.goal, m.result, m.notes ++ ["n1"]⟩ : Entry) :: rest)
      ∧ ((⟨m.start, m.stop, m.goal, m.result, m.notes ++ ["n1"]⟩ : Entry) :: rest).length
          = ([(⟨some 7, some 9, "g", "r", ["n0"]⟩ : Entry)]).length :=
  note_appends_only_latest_notes [⟨some 7, some 9, "g", "r", ["n0"]⟩] "n1" (by simp)

/-! ## The stop and note operations on the empty and completed states -/

/-- C4: when the popped (greatest-start) entry already has `stop` set, the
`stop` subcommand fails with the explicit double-stop error — distinct
from the empty-collection error — and the save is never reached, so the
on-disk contents from the prior run are unchanged. -/
theorem double_stop_fails_without_save (disk : List Entry) (now : Int)
    (result : String) (m : Entry) (rest : List Entry)
    (hpop : popMax disk = some (m, rest)) (hdone : m.stop ≠ none) :
    stopStep disk now result = .error "last entry was already completed"
    ∧ "last entry was already completed" ≠ "NoneError"
    ∧ diskAfterStop disk now result = disk := by
  have h1 : stopStep disk now result = .error "last entry was already completed" := by
    unfold stopStep
    rw [hpop]
    simp [hdone]
  refine ⟨h1, by decide, ?_⟩
  unfold diskAfterStop
  rw [h1]

/-- Witness for `double_stop_fails_without_save` on a one-entry collection
whose entry is completed. -/
theorem double_stop_fails_without_save_witness :
    stopStep [(⟨some 10, some 20, "g", "r", []⟩ : Entry)] 30 "again"
        = .error "last entry was already completed"
      ∧ "last entry was already completed" ≠ "NoneError"
      ∧ diskAfterStop [(⟨some 10, some 20, "g", "r", []⟩ : Entry)] 30 "again"
        = [(⟨some 10, some 20, "g", "r", []⟩ : Entry)] :=
  double_stop_fails_without_save [⟨some 10, some 20, "g", "r", []⟩] 30 "again"
    ⟨some 10, some 20, "g", "r", []⟩ [] (by decide) (by decide)

/-- C8: on the empty collection both `stop` and `note` fail with the
empty-collection error `"NoneError"`, distinct from the double-stop error,
and neither run persists anything. -/
theorem pop_on_empty_distinct_error (now : Int) (result note : String) :
    stopStep [] now result = .error "NoneError"
    ∧ noteStep [] note = .error "NoneError"
    ∧ "NoneError" ≠ "last entry was already completed"
    ∧ diskAfterStop [] now result = []
    ∧ diskAfterNote [] note = [] :=
  ⟨rfl, rfl, by decide, rfl, rfl⟩

/-- Witness for `pop_on_empty_distinct_error` at concrete arguments. -/
theorem pop_on_empty_distinct_error_witness :
    stopStep [] 5 "res" = .error "NoneError"
    ∧ noteStep [] "a note" = .error "NoneError"
    ∧ "NoneError" ≠ "last entry was already completed"
    ∧ diskAfterStop [] 5 "res" = []
    ∧ diskAfterNote [] "a note" = [] :=
  pop_on_empty_distinct_error 5 "res" "a note"

/-! ## Persistence codec -/

/-- C5: save-then-load round-trips semantically.  For an entry with only
`start` and `goal` set (`stop` absent, `result` empty, `notes` empty),
writing a collection containing it and reading it back yields an entry
equal to the original in every field, the notes reloaded as the empty
sequence: the omitted optional fields are default-filled on read. -/
theorem save_load_roundtrip (e : Entry) (hstop : e.stop = none)
    (hres : e.result = "") (hnotes : e.notes = []) :
    read_entries (some (.ok (write_entries [e]))) = .ok [e] := by
  rcases e with ⟨st, sp, g, r, n⟩
  simp only at hstop hres hnotes
  subst hstop hres hnotes
  by_cases hg : g = "" <;>
    simp [read_entries, write_entries, sortEntries, insertByStart,
      Entry.toJson, EntryJson.toEntry, hg]

/-- Witness for `save_load_roundtrip` on a concrete open entry. -/
theorem save_load_roundtrip_witness :
    read_entries (some (.ok (write_entries [(⟨some 5, none, "write a spec", "", []⟩ : Entry)])))
      = .ok [(⟨some 5, none, "write a spec", "", []⟩ : Entry)] :=
  save_load_roundtrip ⟨some 5, none, "write a spec", "", []⟩ rfl rfl rfl

/-- C6: loading when the underlying storage does not exist (the reader is
`None`) yields the empty collection and no error; a load error arises
exactly from an existing file whose contents fail to parse. -/
theorem load_missing_storage_empty :
    read_entries none = .ok []
    ∧ (∀ js : List EntryJson,
        read_entries (some (.ok js)) = .ok (js.map EntryJson.toEntry))
    ∧ (∀ msg : String, read_entries (some (.error msg)) = .error msg) :=
  ⟨rfl, fun _ => rfl, fun _ => rfl⟩

/-- Witness for `load_missing_storage_empty` at a concrete parse failure. -/
theorem load_missing_storage_empty_witness :
    read_entries (some (.error "expected value at line 1")) = .error "expected value at line 1" :=
  load_missing_storage_empty.2.2 "expected value at line 1"

/-! ## Weekly aggregation -/

lemma lookupBucket_bucketAdd (m : List ((Int × Int) × Int)) (k kq : Int × Int)
    (d : Int) :
    lookupBucket (bucketAdd m k d) kq
      = lookupBucket m kq + (if k = kq then d else 0) := by
  induction m with
  | nil =>
    simp only [bucketAdd, lookupBucket]
    split_ifs <;> omega
  | cons hd tl ih =>
    rcases hd with ⟨k0, v⟩
    simp only [bucketAdd]
    by_cases h0 : k0 = k
    · subst h0
      rw [if_pos rfl]
      simp only [lookupBucket]
      by_cases hq : k0 = kq <;> simp [hq]
    · rw [if_neg h0]
      simp only [lookupBucket]
      by_cases hq : k0 = kq
      · have hk : ¬(k = kq) := fun h => h0 (hq.trans h.symm)
        simp [hq, hk]
      · simp [hq, ih]

lemma weeklySummary_go (entries : List Entry)
    (m : List ((Int × Int) × Int)) (k : Int × Int) :
    lookupBucket
        (entries.foldl
          (fun m e =>
            match e.start, e.stop with
            | some a, some b => bucketAdd m (weeklyKey a) (b - a)
            | _, _ => m)
          m) k
      = lookupBucket m k + ((entries.map (weeklyContrib k)).sum) := by
  induction entries generalizing m with
  | nil => simp
  | cons e es ih =>
    simp only [List.foldl_cons, List.map_cons, List.sum_cons]
    rcases hsa : e.start with _ | a <;> rcases hsb : e.stop with _ | b <;>
      simp only [hsa, hsb, ih, weeklyContrib, lookupBucket_bucketAdd] <;>
      omega

/-- C1 (amended): the weekly bucket key the summary uses is the
(CALENDAR year, ISO week number) pair of the entry's start — not the
(ISO year, ISO week number) pair — and the durations of all completed
entries sharing that pair are summed into one bucket (so two entries in
the same ISO week that straddle a calendar-year boundary land in two
different buckets). -/
theorem weekly_buckets_sum_per_calendar_year_week (entries : List Entry)
    (k : Int × Int) :
    lookupBucket (weeklySummary entries) k
      = ((entries.map (weeklyContrib k)).sum) := by
  have h := weeklySummary_go entries [] k
  simpa [lookupBucket] using h

/-- Witness for `weekly_buckets_sum_per_calendar_year_week` on a concrete
two-entry collection whose starts share a calendar-year/ISO-week key. -/
theorem weekly_buckets_sum_per_calendar_year_week_witness :
    lookupBucket
        (weeklySummary
          [⟨some exStartB, some (exStartB + 1800), "", "", []⟩,
           ⟨some (exStartB + 86400), some (exStartB + 86400 + 1800), "", "", []⟩])
        (weeklyKey exStartB)
      = 3600 := by
  have h := weekly_buckets_sum_per_calendar_year_week
    [⟨some exStartB, some (exStartB + 1800), "", "", []⟩,
     ⟨some (exStartB + 86400), some (exStartB + 86400 + 1800), "", "", []⟩]
    (weeklyKey exStartB)
  rw [h]
  decide

/-- C1 counterexample: the starts `exStartA` (2019-12-30) and `exStartB`
(2020-01-03) lie in the same ISO 8601 week — both have
`(ISO year, ISO week) = (2020, 1)` — yet the summary keys them differently
(`(2019, 1)` versus `(2020, 1)`, the calendar year of the start paired
with the ISO week number), so their 30-minute durations end up in two
separate buckets of 1800 seconds instead of one bucket of 3600. -/
theorem weekly_same_iso_week_different_buckets :
    isoWeekPair exStartA = isoWeekPair exStartB
    ∧ isoWeekPair exStartA = (2020, 1)
    ∧ weeklyKey exStartA = (2019, 1)
    ∧ weeklyKey exStartB = (2020, 1)
    ∧ weeklyKey exStartA ≠ weeklyKey exStartB
    ∧ weeklySummary
        [⟨some exStartA, some (exStartA + 1800), "", "", []⟩,
         ⟨some exStartB, some (exStartB + 1800), "", "", []⟩]
        = [((2019, 1), 1800), ((2020, 1), 1800)]
    ∧ lookupBucket
        (weeklySummary
          [⟨some exStartA, some (exStartA + 1800), "", "", []⟩,
           ⟨some exStartB, some (exStartB + 1800), "", "", []⟩])
        (isoWeekPair exStartA) = 1800 := by
  refine ⟨by decide, by decide, by decide, by decide, by decide, by decide, by decide⟩

/-! ## Duration formatting -/

lemma secsRep_numSeconds {dur : Duration} {n : Int} (h : SecsRep dur n) :
    dur.numSeconds = n := by
  unfold Duration.numSeconds
  rcases h with ⟨h1, h2 | h2⟩ | ⟨h1, h2, h3⟩ <;> split_ifs <;> omega

lemma secsRep_init (dur : Duration) : SecsRep dur dur.numSeconds := by
  unfold SecsRep Duration.numSeconds
  split_ifs with h
  · exact Or.inr ⟨by omega, h.2, by omega⟩
  · exact Or.inl ⟨rfl, by omega⟩

lemma tmod_nonpos {n c : Int} (hn : n ≤ 0) (hc : 0 < c) : n.tmod c ≤ 0 := by
  have h1 : 0 ≤ (-n).tmod c := Int.tmod_nonneg c (by omega)
  have h2 := Int.tdiv_add_tmod n c
  have h3 := Int.tdiv_add_tmod (-n) c
  rw [Int.neg_tdiv, mul_neg] at h3
  linarith

lemma secsRep_sub_whole (dur : Duration) (k : Int) :
    dur.sub ⟨k, 0⟩ = ⟨dur.secs - k, dur.nanos⟩ := by
  unfold Duration.sub
  have h : ¬ (((dur.nanos : Int) - ((0 : Nat) : Int)) < 0) := by
    simp
  rw [if_neg h]
  simp

lemma secsRep_step {dur : Duration} {n : Int} (c : Int) (hc : 0 < c)
    (h : SecsRep dur n) :
    SecsRep (dur.sub ⟨n.tdiv c * c, 0⟩) (n.tmod c) := by
  have hmod : n.tmod c = n - n.tdiv c * c := by
    have h2 := Int.tdiv_add_tmod n c
    linarith
  rw [secsRep_sub_whole]
  rcases h with ⟨h1, h2 | h2⟩ | ⟨h1, h2, h3⟩
  · exact Or.inl ⟨by rw [h1, hmod], Or.inl h2⟩
  · exact Or.inl ⟨by rw [h1, hmod], Or.inr (Int.tmod_nonneg c h2)⟩
  · refine Or.inr ⟨?_, h2, tmod_nonpos h3 hc⟩
    rw [h1, hmod]; ring

lemma secsRep_stage {dur : Duration} {n : Int} (c : Int) (hc : 0 < c)
    (h : SecsRep dur n) :
    SecsRep (if n.tdiv c ≠ 0 then dur.sub ⟨n.tdiv c * c, 0⟩ else dur)
      (n.tmod c) := by
  by_cases hd : n.tdiv c = 0
  · have hmod : n.tmod c = n := by
      have h2 := Int.tdiv_add_tmod n c
      rw [hd] at h2
      simpa using h2
    rw [if_neg (fun hcon => hcon hd), hmod]
    exact h
  · rw [if_pos hd]
    exact secsRep_step c hc h

lemma out_append (v : Int) (u out : String) :
    (if v ≠ 0 then out ++ toString v ++ u else out) = out ++ renderUnit v u := by
  unfold renderUnit
  by_cases hv : v = 0
  · rw [if_neg (fun hcon => hcon hv), if_pos hv, String.append_empty]
  · rw [if_pos hv, if_neg hv, String.append_assoc]

/-- Master lemma: `format_dur` computes the whole-seconds formatting chain
of its argument's `num_seconds`; the sub-second part never shows in the
output. -/
theorem format_dur_eq_spec (dur0 : Duration) :
    format_dur dur0 = specFormatDur dur0.numSeconds := by
  have h0 : SecsRep dur0 dur0.numSeconds := secsRep_init dur0
  set n := dur0.numSeconds with hn
  unfold format_dur
  dsimp only
  rw [show dur0.numDays = n.tdiv 86400 from by
    rw [Duration.numDays, secsRep_numSeconds h0]]
  set d1 := (if n.tdiv 86400 ≠ 0 then dur0.sub (Duration.days (n.tdiv 86400)) else dur0)
    with hd1
  have h1 : SecsRep d1 (n.tmod 86400) := by
    rw [hd1]; exact secsRep_stage 86400 (by norm_num) h0
  rw [show d1.numHours = (n.tmod 86400).tdiv 3600 from by
    rw [Duration.numHours, secsRep_numSeconds h1]]
  set d2 := (if (n.tmod 86400).tdiv 3600 ≠ 0
      then d1.sub (Duration.hours ((n.tmod 86400).tdiv 3600)) else d1) with hd2
  have h2 : SecsRep d2 ((n.tmod 86400).tmod 3600) := by
    rw [hd2]; exact secsRep_stage 3600 (by norm_num) h1
  rw [show d2.numMinutes = ((n.tmod 86400).tmod 3600).tdiv 60 from by
    rw [Duration.numMinutes, secsRep_numSeconds h2]]
  set d3 := (if ((n.tmod 86400).tmod 3600).tdiv 60 ≠ 0
      then d2.sub (Duration.minutes (((n.tmod 86400).tmod 3600).tdiv 60)) else d2)
    with hd3
  have h3 : SecsRep d3 (((n.tmod 86400).tmod 3600).tmod 60) := by
    rw [hd3]; exact secsRep_stage 60 (by norm_num) h2
  rw [secsRep_numSeconds h3]
  unfold specFormatDur
  simp only [out_append]
  rw [String.empty_append]

/-- C3: on a non-negative span, `format_dur` is exactly the concatenation
of the non-zero components of the floor decomposition into days, hours,
minutes, seconds, each rendered `"<value><unit-letter>"` with no
separators, zero components omitted; the listed examples evaluate as the
specification states. -/
theorem format_dur_nonneg_decomposition (dur : Duration) (h : 0 ≤ dur.secs) :
    format_dur dur
      = renderUnit (dur.secs / 86400) "d" ++ renderUnit (dur.secs % 86400 / 3600) "h"
        ++ renderUnit (dur.secs % 3600 / 60) "m" ++ renderUnit (dur.secs % 60) "s"
    ∧ format_dur ⟨0, 0⟩ = "" ∧ format_dur ⟨5400, 0⟩ = "1h30m"
    ∧ format_dur ⟨90000, 0⟩ = "1d1h" ∧ format_dur ⟨3, 0⟩ = "3s" := by
  refine ⟨?_, by decide, by decide, by decide, by decide⟩
  have hns : dur.numSeconds = dur.secs := by
    unfold Duration.numSeconds; split_ifs <;> omega
  rw [format_dur_eq_spec dur, hns]
  unfold specFormatDur
  set s := dur.secs with hs
  have c1 : s.tdiv 86400 = s / 86400 := Int.tdiv_eq_ediv h (by norm_num)
  have c2 : s.tmod 86400 = s % 86400 := Int.tmod_eq_emod h (by norm_num)
  have e1 : (0:Int) ≤ s % 86400 := Int.emod_nonneg s (by norm_num)
  have c3 : (s % 86400).tdiv 3600 = s % 86400 / 3600 :=
    Int.tdiv_eq_ediv e1 (by norm_num)
  have c4 : (s % 86400).tmod 3600 = s % 86400 % 3600 :=
    Int.tmod_eq_emod e1 (by norm_num)
  have c5 : s % 86400 % 3600 = s % 3600 := Int.emod_emod_of_dvd s (by norm_num)
  have e2 : (0:Int) ≤ s % 3600 := Int.emod_nonneg s (by norm_num)
  have c6 : (s % 3600).tdiv 60 = s % 3600 / 60 := Int.tdiv_eq_ediv e2 (by norm_num)
  have c7 : (s % 3600).tmod 60 = s % 3600 % 60 := Int.tmod_eq_emod e2 (by norm_num)
  have c8 : s % 3600 % 60 = s % 60 := Int.emod_emod_of_dvd s (by norm_num)
  rw [c1, c2, c3, c4, c5, c6, c7, c8]

/-- Witness for `format_dur_nonneg_decomposition` at 90 minutes. -/
theorem format_dur_nonneg_decomposition_witness :
    format_dur ⟨5400, 0⟩
      = renderUnit ((5400:Int) / 86400) "d" ++ renderUnit ((5400:Int) % 86400 / 3600) "h"
        ++ renderUnit ((5400:Int) % 3600 / 60) "m" ++ renderUnit ((5400:Int) % 60) "s" :=
  (format_dur_nonneg_decomposition ⟨5400, 0⟩ (by norm_num)).1

/-- C9: the output of `format_dur` depends only on the whole-seconds part
of the span: every span strictly within one second of zero (in either
direction) formats to the empty string (the span in the first conjunct is
`secs + nanos·10⁻⁹` seconds, constrained to `(-1, 1)`), and in general a
duration formats identically to its whole-seconds truncation — the
sub-second remainder is dropped. -/
theorem format_dur_whole_seconds_only :
    (∀ dur : Duration, dur.nanos < 1000000000 →
       -1000000000 < dur.secs * 1000000000 + (dur.nanos : Int) →
       dur.secs * 1000000000 + (dur.nanos : Int) < 1000000000 →
       format_dur dur = "")
    ∧ ∀ dur : Duration, format_dur dur = format_dur ⟨dur.numSeconds, 0⟩ := by
  have hz : ∀ k : Int, Duration.numSeconds ⟨k, 0⟩ = k := by
    intro k; simp [Duration.numSeconds]
  constructor
  · intro dur hval hlo hhi
    have h0 : dur.numSeconds = 0 := by
      unfold Duration.numSeconds; split_ifs <;> omega
    rw [format_dur_eq_spec dur, h0]
    decide
  · intro dur
    rw [format_dur_eq_spec dur, format_dur_eq_spec ⟨dur.numSeconds, 0⟩, hz]

/-- Witness for `format_dur_whole_seconds_only` at half a second. -/
theorem format_dur_whole_seconds_only_witness :
    format_dur ⟨0, 500000000⟩ = "" :=
  format_dur_whole_seconds_only.1 ⟨0, 500000000⟩ (by norm_num) (by norm_num)
    (by norm_num)

end Timelog
